import Mathlib

/-!
Verification development for the `uptown` census-data library.

The Rust sources are embedded shallowly:

* `GeoHdr` — the fixed-column field catalog and its three line views
  (`src/dataset.rs`, module `census2010::pl94_171::header`).
* `PList` — the packing-list parser's table-location and file-information
  phases (`src/dataset/packing_list.rs`).
* `GeoIdx` — the geographic-header indexing loop of `IndexedDataset::index`
  (`src/dataset/indexed.rs`, lines 439..476).
* `TabIdx` — the tabular indexing loop of `IndexedDataset::index`
  (`src/lib.rs`, lines 474..493).
* `RecGet` — `IndexedDataset::get_logical_record` (`src/lib.rs`, lines 113..178).
* `GeoLookup` — `get_logical_record_number_for_geoid`
  (`src/dataset/indexed.rs`, lines 85..95).

Strings are modelled as `List Char` (the inputs are ASCII), machine integers
as `Nat` with explicit bounds where the code can overflow, and fallible code
(Rust panics, `?`-propagated errors) as `Option`/`Except`.  `debug_assert!`
is modelled as a real check (the semantics the crate's own test suite runs
under); where this matters it is noted at the definition.
-/

/-- `Option`-valued map over a list: the first failure aborts.  Models a Rust
loop of fallible steps that each may panic or propagate an error. -/
def mapOpt {α β : Type} (f : α → Option β) : List α → Option (List β)
  | [] => some []
  | a :: as => do
    let b ← f a
    let bs ← mapOpt f as
    pure (b :: bs)

/-- ASCII decimal digit test, as in `char::is_ascii_digit`. -/
def isDigitCh (c : Char) : Bool := decide (48 ≤ c.toNat) && decide (c.toNat ≤ 57)

/-- Value of a digit character. -/
def natDigit (c : Char) : Nat := c.toNat - 48

/-- Value of a digit string, most significant digit first. -/
def digitsVal (cs : List Char) : Nat := cs.foldl (fun a c => a * 10 + natDigit c) 0

/-- Rust `str::parse::<u64>`: an optional `+` sign, then one or more ASCII
digits, rejecting overflow past `u64::MAX`. -/
def parseU64 (cs : List Char) : Option Nat :=
  let ds := match cs with
    | '+' :: t => t
    | _ => cs
  if ds ≠ [] ∧ ds.all isDigitCh = true ∧ digitsVal ds < 2 ^ 64 then some (digitsVal ds)
  else none

/-- Rust byte-slicing `&s[a..b]`: defined when `a ≤ b ≤ s.len()`, a panic
(`none`) otherwise.  The inputs are ASCII so byte and char indices agree. -/
def sliceO (l : List Char) (a b : Nat) : Option (List Char) :=
  if a ≤ b ∧ b ≤ l.length then some ((l.drop a).take (b - a)) else none

/-- A run of `k` spaces (a blank fixed-width field). -/
def blankN (k : Nat) : List Char := List.replicate k ' '

/-- Error kinds.  Modelled from the spec: the crate's `error.rs` is not under
`src/`, so the structured variants (`§7` of the spec: `InconsistentRowCount`,
`UnknownGeoid`, …) are reconstructed from the spec's taxonomy; `panicked`
marks a Rust panic (`unwrap`/`expect`/`assert!`/`unimplemented!`), which is
not a structured error value. -/
inductive CensusError where
  | panicked
  | inconsistentRowCount (values : List Nat)
  | unknownGeoid (geoid : List Char)
deriving DecidableEq

/-- `TableSegmentSpecifier` (src/lib.rs lines 96..100): a table segment lives
in tabular file `file` and occupies `columns` CSV columns. -/
structure TableSegmentSpecifier where
  file : Nat
  columns : Nat
deriving DecidableEq

/-- `TableSegmentLocation` (src/lib.rs lines 102..106): resolved absolute
column range `start..stop` (Rust `Range { start, end }`) in file `file`. -/
structure TableSegmentLocation where
  file : Nat
  start : Nat
  stop : Nat
deriving DecidableEq

/-- `census2010::pl94_171::Table` (src/lib.rs lines 30..36). -/
inductive Pl94Table2010 where
  | P1 | P2 | P3 | P4 | H1
deriving DecidableEq

/-- `census2020::pl94_171::Table` (referenced by src/dataset/packing_list.rs;
the 2020 module mirrors the 2010 one plus `P5`). -/
inductive Pl94Table2020 where
  | P1 | P2 | P3 | P4 | P5 | H1
deriving DecidableEq

namespace PList

/-- `Schema` as used by the newer parser (src/dataset/packing_list.rs). -/
inductive Schema where
  | census2010Pl94_171
  | census2020Pl94_171
deriving DecidableEq

/-- `Table` as used by the newer parser. -/
inductive Table where
  | census2010 (t : Pl94Table2010)
  | census2020 (t : Pl94Table2020)
deriving DecidableEq

/-- Rust `str::split(sep)`: substrings between separators, keeping empties. -/
def splitCh (sep : Char) : List Char → List (List Char)
  | [] => [[]]
  | c :: rest =>
    let r := splitCh sep rest
    if c = sep then [] :: r
    else (c :: r.headD []) :: r.tail

/-- Modelled from the spec: `FromStr for TableSegmentSpecifier` is not under
`src/`.  Per spec §4.1 phase D a token has the shape `FILE:WIDTH` with both
components base-10 numerals; anything else fails to parse. -/
def parseSpecifier (tok : List Char) : Option TableSegmentSpecifier :=
  match splitCh ':' tok with
  | [a, b] =>
    if a ≠ [] ∧ a.all isDigitCh = true ∧ b ≠ [] ∧ b.all isDigitCh = true then
      some ⟨digitsVal a, digitsVal b⟩
    else none
  | _ => none

/-- The `match (schema, name)` of `extract_table_locations`
(src/dataset/packing_list.rs lines 291..328); an unrecognized name hits
`unimplemented!()`, i.e. fails. -/
def tableOf : Schema → String → Option Table
  | .census2010Pl94_171, "p1" => some (.census2010 .P1)
  | .census2010Pl94_171, "p2" => some (.census2010 .P2)
  | .census2010Pl94_171, "p3" => some (.census2010 .P3)
  | .census2010Pl94_171, "p4" => some (.census2010 .P4)
  | .census2010Pl94_171, "h1" => some (.census2010 .H1)
  | .census2010Pl94_171, _ => none
  | .census2020Pl94_171, "p1" => some (.census2020 .P1)
  | .census2020Pl94_171, "p2" => some (.census2020 .P2)
  | .census2020Pl94_171, "p3" => some (.census2020 .P3)
  | .census2020Pl94_171, "p4" => some (.census2020 .P4)
  | .census2020Pl94_171, "h1" => some (.census2020 .H1)
  | .census2020Pl94_171, "p5" => some (.census2020 .P5)
  | .census2020Pl94_171, _ => none

/-- The per-file cursor map `current_columns : FnvHashMap<u32, usize>`,
modelled as an insertion-ordered association list. -/
abbrev CursorMap := List (Nat × Nat)

/-- `HashMap::get`. -/
def mapFind : CursorMap → Nat → Option Nat
  | [], _ => none
  | (k', v') :: rest, k => if k' = k then some v' else mapFind rest k

/-- `HashMap::insert` (replace an existing key's value, else append). -/
def mapInsert : CursorMap → Nat → Nat → CursorMap
  | [], k, v => [(k, v)]
  | (k', v') :: rest, k, v =>
    if k' = k then (k, v) :: rest else (k', v') :: mapInsert rest k v

/-- The per-specifier body of the `locations` construction
(src/dataset/packing_list.rs lines 331..346): initialize the file's cursor to
5 on first use, emit `start..start+columns`, advance the cursor.  The
`.unwrap()` after the conditional insert cannot fail, so the `none` branch of
`mapFind` is read as 0 (unreachable). -/
def allocSeg (m : CursorMap) (sp : TableSegmentSpecifier) : CursorMap × TableSegmentLocation :=
  let m1 := if mapFind m sp.file = none then mapInsert m sp.file 5 else m
  let start := (mapFind m1 sp.file).getD 0
  let stop := start + sp.columns
  (mapInsert m1 sp.file stop, ⟨sp.file, start, stop⟩)

/-- The `specs.iter().map(...)` fold building one table's `locations`. -/
def allocSegs (m : CursorMap) : List TableSegmentSpecifier → CursorMap × List TableSegmentLocation
  | [] => (m, [])
  | sp :: rest =>
    let (m1, loc) := allocSeg m sp
    let (m2, locs) := allocSegs m1 rest
    (m2, loc :: locs)

/-- One table-information line of `extract_table_locations`
(src/dataset/packing_list.rs lines 272..352): the location field's
whitespace-split tokens are `filter_map`-parsed (line 289), the table name is
matched against the schema, and the segment locations are allocated. -/
def extractLine (schema : Schema) (m : CursorMap) (name : String) (toks : List (List Char)) :
    Option (CursorMap × Table × List TableSegmentLocation) :=
  let specs := toks.filterMap parseSpecifier
  match tableOf schema name with
  | none => none
  | some tbl =>
    let (m1, locs) := allocSegs m specs
    some (m1, tbl, locs)

/-- The full `extract_table_locations` walk over the manifest's
table-information lines, threading the cursor map in manifest order. -/
def extractLines (schema : Schema) :
    List (String × List (List Char)) → CursorMap →
    Option (CursorMap × List (Table × List TableSegmentLocation))
  | [], m => some (m, [])
  | (name, toks) :: rest, m =>
    match extractLine schema m name toks with
    | none => none
    | some (m1, tbl, locs) =>
      match extractLines schema rest m1 with
      | none => none
      | some (m2, out) => some (m2, (tbl, locs) :: out)

/-- `extract_table_locations` (src/dataset/packing_list.rs lines 267..354),
starting from the empty cursor map. -/
def extract_table_locations (schema : Schema) (lines : List (String × List (List Char))) :
    Option (CursorMap × List (Table × List TableSegmentLocation)) :=
  extractLines schema lines []

/-- All successfully parsed segment specifiers of a manifest, in manifest
order. -/
def allSpecs (lines : List (String × List (List Char))) : List TableSegmentSpecifier :=
  (lines.map (fun p => p.2.filterMap parseSpecifier)).flatten

/-- The column ranges file `n` receives when widths `ws` are laid out
consecutively from cursor `c`: the spec-side "ladder" the allocator is
compared against. -/
def ladder (n c : Nat) : List Nat → List TableSegmentLocation
  | [] => []
  | w :: ws => ⟨n, c, c + w⟩ :: ladder n (c + w) ws

/-- `FileInformation` (src/dataset/packing_list.rs lines 157..164); the
`ty : FileType` tag is dropped here because `convert_file_information`
receives an already-partitioned input. -/
structure FileInformation where
  filename : String
  date : String
  file_size : Nat
  rows : Nat
deriving DecidableEq

/-- Rust `Vec::dedup`: collapse runs of consecutive equal elements. -/
def dedupC : List Nat → List Nat
  | [] => []
  | [a] => [a]
  | a :: b :: rest => if a = b then dedupC (b :: rest) else a :: dedupC (b :: rest)

/-- `convert_file_information` (src/dataset/packing_list.rs lines 243..265):
collect every file's `rows` (tabular files in map-iteration order, then the
header), `dedup`, `debug_assert!` a single value remains, and return it with
the path maps.  The `debug_assert!` is modelled as a check that panics. -/
def convert_file_information (tabulars : List (Nat × FileInformation))
    (header : FileInformation) :
    Except CensusError (List (Nat × String) × String × Nat) :=
  let vec := (tabulars.map (fun p => p.2.rows)) ++ [header.rows]
  let ded := dedupC vec
  if ded.length = 1 then
    .ok (tabulars.map (fun p => (p.1, p.2.filename)), header.filename, ded.headD 0)
  else .error .panicked

end PList

/-- An indexed geographic-header entry: `new_header_index` maps a GEOID to
`(logrecno, line byte offset)`; the `GeographicalHeaderIndex` map (its alias
is not under `src/`; spec §3 describes it as `map<GEOID → (logrecno,
offset)>`) is modelled as the insertion-ordered list of its entries. -/
structure GeoEntry where
  geoid : List Char
  logrecno : Nat
  offset : Nat
deriving DecidableEq

namespace GeoIdx

/-- One iteration of the geographic-header loop of `IndexedDataset::index`
(src/dataset/indexed.rs lines 446..475): slice LOGRECNO/STATE/COUNTY/TRACT/
BLOCK, apply the four-case blank filter, and on the keep case parse LOGRECNO
(`?`-propagated), `assert!` the GEOID is fresh, and insert. -/
def geoStep (pos : Nat) (line : List Char) (acc : List GeoEntry) : Option (List GeoEntry) := do
  let lr ← sliceO line 18 25
  let s ← sliceO line 27 29
  let c ← sliceO line 29 32
  let t ← sliceO line 54 60
  let b ← sliceO line 61 65
  if c = blankN 3 ∧ t = blankN 6 ∧ b = blankN 4 then some acc
  else if t = blankN 6 ∧ b = blankN 4 then some acc
  else if b = blankN 4 then some acc
  else do
    let n ← parseU64 lr
    let geoid := s ++ c ++ t ++ b
    if acc.any (fun e => e.geoid == geoid) then none
    else some (acc ++ [⟨geoid, n, pos⟩])

/-- The whole loop: `pos` advances by the byte length of each line read
(`read_line` keeps the terminator, so a line's bytes include it and the file
is the concatenation of the lines). -/
def indexGeoAux : List (List Char) → Nat → List GeoEntry → Option (List GeoEntry)
  | [], _, acc => some acc
  | line :: rest, pos, acc =>
    match geoStep pos line acc with
    | none => none
    | some acc' => indexGeoAux rest (pos + line.length) acc'

/-- Geographic-header indexing of a file given as its list of lines
(terminators included), starting at offset 0 with an empty index. -/
def indexGeo (lines : List (List Char)) : Option (List GeoEntry) :=
  indexGeoAux lines 0 []

/-- The claim's "all four of STATE, COUNTY, TRACT and BLOCK spans are
non-blank" predicate, written from the spec's words for comparison with the
code's filter. -/
def AllFourNonBlank (line : List Char) : Prop :=
  sliceO line 27 29 ≠ some (blankN 2) ∧ sliceO line 29 32 ≠ some (blankN 3) ∧
    sliceO line 54 60 ≠ some (blankN 6) ∧ sliceO line 61 65 ≠ some (blankN 4)

instance (line : List Char) : Decidable (AllFourNonBlank line) := by
  unfold AllFourNonBlank; infer_instance

/-- A block-level header line: LOGRECNO `0000001`, STATE `18`, COUNTY `097`,
TRACT `330100`, BLOCK `1000` (65 bytes, the b..prefix of a 500-byte line). -/
def exGeoLine : List Char :=
  List.replicate 18 ' ' ++ "0000001".data ++ "  ".data ++ "18".data ++ "097".data ++
    List.replicate 22 ' ' ++ "330100".data ++ " ".data ++ "1000".data

/-- The entry `exGeoLine` produces. -/
def exGeoEntry : GeoEntry :=
  ⟨"18".data ++ "097".data ++ "330100".data ++ "1000".data, 1, 0⟩

/-- A header line with blank COUNTY but non-blank BLOCK: LOGRECNO `0000007`,
STATE `18`, COUNTY blank, TRACT `330100`, BLOCK `1000`. -/
def exGeoLineBlankCounty : List Char :=
  List.replicate 18 ' ' ++ "0000007".data ++ "  ".data ++ "18".data ++ "   ".data ++
    List.replicate 22 ' ' ++ "330100".data ++ " ".data ++ "1000".data

/-- The entry `exGeoLineBlankCounty` produces. -/
def exGeoEntryBlankCounty : GeoEntry :=
  ⟨"18".data ++ "   ".data ++ "330100".data ++ "1000".data, 7, 0⟩

end GeoIdx

namespace TabIdx

/-- Column 4 (LOGRECNO) of a CSV record, parsed as `u64`: `record[4]` panics
when the record is short, `.parse()` fails on malformed digits. -/
def col4 (r : List String) : Option Nat :=
  (r.get? 4).bind (fun s => parseU64 s.data)

/-- The tabular indexing loop of `IndexedDataset::index` (src/lib.rs lines
474..493): for each CSV record (given as its starting byte offset and its
cells) parse LOGRECNO from column 4 and `HashMap::insert` the offset, later
insertions overwriting earlier ones. -/
def tabIdxAux : List (Nat × List String) → (Nat → Option Nat) → Option (Nat → Option Nat)
  | [], m => some m
  | (off, r) :: rest, m => do
    let v ← col4 r
    tabIdxAux rest (fun x => if x = v then some off else m x)

/-- Index one tabular file from an empty `HashMap`. -/
def tabularIndex (recs : List (Nat × List String)) : Option (Nat → Option Nat) :=
  tabIdxAux recs (fun _ => none)

/-- Byte offset of the last record of `recs` whose column 4 parses to `l`
(spec side of the last-wins overwrite). -/
def lastOff (l : Nat) : List (Nat × List String) → Option Nat
  | [] => none
  | (off, r) :: rest =>
    match lastOff l rest with
    | some o => some o
    | none => if col4 r = some l then some off else none

/-- Two CSV records carrying the same LOGRECNO `1`, at offsets 0 and 120. -/
def exDupRecs : List (Nat × List String) :=
  [(0, ["PLST", "IN", "000", "01", "1", "11", "12"]),
   (120, ["PLST", "IN", "000", "01", "1", "21", "22"])]

end TabIdx

namespace RecGet

/-- `Schema` of the older library root (src/lib.rs lines 50..54):
`Census2010Pl94_171(Option<Table>)`. -/
inductive Schema where
  | census2010Pl94_171 (t : Option Pl94Table2010)
deriving DecidableEq

/-- An open tabular file handle, abstracted by what a CSV reader returns
after seeking to a byte offset and reading one record. -/
structure TabFile where
  read : Nat → List String

/-- The state of an `IndexedDataset` (src/lib.rs lines 86..94) as
`get_logical_record` consumes it: the per-table segment locations, the open
tabular files keyed by their file number, and the optional logical-record
index (per file number, logrecno to byte offset). -/
structure DS where
  tables : Schema → Option (List TableSegmentLocation)
  files : Nat → Option TabFile
  logicalRecordIndex : Option (Nat → Option (Nat → Option Nat))

/-- The `match schema` of the ranges construction (src/lib.rs lines
126..129): a tabular `FileType` exists only for a schema carrying a table;
the `None` schema hits `unimplemented!()`. -/
def ftyOf (s : Schema) (fileNum : Nat) : Option Nat :=
  match s with
  | .census2010Pl94_171 (some _) => some fileNum
  | .census2010Pl94_171 none => none

/-- The columns of one segment, `loc.start ≤ c < loc.stop`, in order. -/
def rangeL (a b : Nat) : List Nat := (List.range (b - a)).map (fun i => a + i)

/-- Retrieval of one segment's cells (the per-range body of
`get_logical_record`, src/lib.rs lines 142..171): locate the file, the
per-file index and the byte offset for `n`, read the CSV record there,
`debug_assert!` its column 4 equals `n`, and project `rec[col]` for each
column of the range (each indexing panics when out of bounds). -/
def segCells (ds : DS) (idx : Nat → Option (Nat → Option Nat)) (n : Nat) (s : Schema)
    (loc : TableSegmentLocation) : Option (List String) := do
  let f ← ftyOf s loc.file
  let tf ← ds.files f
  let pidx ← idx f
  let off ← pidx n
  let r := tf.read off
  let v ← TabIdx.col4 r
  if v = n then mapOpt (fun c => r.get? c) (rangeL loc.start loc.stop) else none

/-- One requested schema's cells (the per-schema stage of
`get_logical_record`): look up the schema's segment locations
(`self.tables.get(schema).unwrap()`) and fetch each segment's cells in
stored order. -/
def tableCells (ds : DS) (idx : Nat → Option (Nat → Option Nat)) (n : Nat)
    (s : Schema) : Option (List String) := do
  let locs ← ds.tables s
  let cs ← mapOpt (segCells ds idx n s) locs
  pure cs.flatten

/-- `get_logical_record` (src/lib.rs lines 113..178): for each requested
schema in caller order look up its segment locations, fetch each segment's
cells in stored order, and append everything into one output record. -/
def get_logical_record (ds : DS) (n : Nat) (reqs : List Schema) : Option (List String) :=
  match ds.logicalRecordIndex with
  | none => none
  | some idx => do
    let parts ← mapOpt (tableCells ds idx n) reqs
    pure parts.flatten

/-- Spec-side slice `record[start..stop]`. -/
def listSlice (r : List String) (a b : Nat) : List String := (r.drop a).take (b - a)

/-- Witness dataset: one tabular file 1 whose record for logrecno 7 sits at
byte offset 0, and one table P1 at columns 5..8 of that file. -/
def exTabFile : TabFile :=
  ⟨fun off => if off = 0 then ["PLST", "in", "000", "01", "7", "10", "20", "30"] else []⟩

/-- Witness per-file position index. -/
def exPosIdx : Nat → Option Nat := fun n => if n = 7 then some 0 else none

/-- Witness dataset value. -/
def exDS : DS :=
  { tables := fun s =>
      if s = .census2010Pl94_171 (some .P1) then some [⟨1, 5, 8⟩] else none
    files := fun k => if k = 1 then some exTabFile else none
    logicalRecordIndex := some (fun k => if k = 1 then some exPosIdx else none) }

end RecGet

namespace GeoLookup

/-- `get_logical_record_number_for_geoid` (src/dataset/indexed.rs lines
85..95): with a built header index, `index.get(geoid).unwrap()` — a missing
GEOID panics in `unwrap`; with no index built, `unimplemented!()` panics. -/
def get_logical_record_number_for_geoid
    (header_index : Option (List Char → Option (Nat × Nat))) (geoid : List Char) :
    Except CensusError Nat :=
  match header_index with
  | some idx =>
    match idx geoid with
    | some result => .ok result.1
    | none => .error .panicked
  | none => .error .panicked

/-- Witness header index containing exactly the Indiana block GEOID. -/
def exHeaderIndex : List Char → Option (Nat × Nat) :=
  fun g => if g = "181570052001013".data then some (335180, 77) else none

end GeoLookup

namespace GeoHdr

/-- `Field` (src/dataset.rs lines 52..154): the 100 fields of the PL94-171
geographic-header fixed-column layout. -/
inductive Field where
  | FILEID | STUSAB | SUMLEV | GEOCOMP | CHARITER | CIFSN | LOGRECNO | REGION | DIVISION
  | STATE | COUNTY | COUNTYCC | COUNTYSC | COUSUB | COUSUBCC | COUSUBSC | PLACE | PLACECC
  | PLACESC | TRACT | BLKGRP | BLOCK | IUC | CONCIT | CONCITCC | CONCITSC | AIANHH
  | AIANHHFP | AIANHHCC | AIHHTLI | AITSCE | AITS | AITSCC | TTRACT | TBLKGRP | ANRC
  | ANRCCC | CBSA | CBASC | METDIV | CSA | NECTA | NECTASC | NECTADIV | CNECTA | CBSAPCI
  | NECTAPCI | UA | UASC | UATYPE | UR | CD | SLDU | SLDL | VTD | VTDI | RESERVE2 | ZCTA5
  | SUBMCD | SUBMCDCC | SDELM | SDSEC | SDUNI | AREALAND | AREAWATR | NAME | FUNCSTAT
  | GCUNI | POP100 | HU100 | INTPTLAT | INTPTLON | LSADC | PARTFLAG | RESERVE3 | UGA
  | STATENS | COUNTYNS | COUSUBNS | PLACENS | CONCITNS | AIANHHNS | AITSNS | ANRCNS
  | SUBMCDNS | CD113 | CD114 | CD115 | SLDU2 | SLDU3 | SLDU4 | SLDL2 | SLDL3 | SLDL4
  | AIANHHSC | CSASC | CNECTASC | MEMI | NMEMI | PUMA | RESERVED
deriving DecidableEq

/-- `FIELDS` (src/dataset.rs lines 158..169): the declared field order. -/
def FIELDS : List Field :=
  [Field.FILEID, Field.STUSAB, Field.SUMLEV, Field.GEOCOMP, Field.CHARITER, Field.CIFSN,
   Field.LOGRECNO, Field.REGION, Field.DIVISION, Field.STATE, Field.COUNTY, Field.COUNTYCC,
   Field.COUNTYSC, Field.COUSUB, Field.COUSUBCC, Field.COUSUBSC, Field.PLACE, Field.PLACECC,
   Field.PLACESC, Field.TRACT, Field.BLKGRP, Field.BLOCK, Field.IUC, Field.CONCIT,
   Field.CONCITCC, Field.CONCITSC, Field.AIANHH, Field.AIANHHFP, Field.AIANHHCC,
   Field.AIHHTLI, Field.AITSCE, Field.AITS, Field.AITSCC, Field.TTRACT, Field.TBLKGRP,
   Field.ANRC, Field.ANRCCC, Field.CBSA, Field.CBASC, Field.METDIV, Field.CSA, Field.NECTA,
   Field.NECTASC, Field.NECTADIV, Field.CNECTA, Field.CBSAPCI, Field.NECTAPCI, Field.UA,
   Field.UASC, Field.UATYPE, Field.UR, Field.CD, Field.SLDU, Field.SLDL, Field.VTD,
   Field.VTDI, Field.RESERVE2, Field.ZCTA5, Field.SUBMCD, Field.SUBMCDCC, Field.SDELM,
   Field.SDSEC, Field.SDUNI, Field.AREALAND, Field.AREAWATR, Field.NAME, Field.FUNCSTAT,
   Field.GCUNI, Field.POP100, Field.HU100, Field.INTPTLAT, Field.INTPTLON, Field.LSADC,
   Field.PARTFLAG, Field.RESERVE3, Field.UGA, Field.STATENS, Field.COUNTYNS, Field.COUSUBNS,
   Field.PLACENS, Field.CONCITNS, Field.AIANHHNS, Field.AITSNS, Field.ANRCNS, Field.SUBMCDNS,
   Field.CD113, Field.CD114, Field.CD115, Field.SLDU2, Field.SLDU3, Field.SLDU4, Field.SLDL2,
   Field.SLDL3, Field.SLDL4, Field.AIANHHSC, Field.CSASC, Field.CNECTASC, Field.MEMI,
   Field.NMEMI, Field.PUMA, Field.RESERVED]

/-- `get_span` (src/dataset.rs lines 212..317): byte range of each field. -/
def get_span : Field → Nat × Nat
  | .FILEID => (0, 6)
  | .STUSAB => (6, 8)
  | .SUMLEV => (8, 11)
  | .GEOCOMP => (11, 13)
  | .CHARITER => (13, 16)
  | .CIFSN => (16, 18)
  | .LOGRECNO => (18, 25)
  | .REGION => (25, 26)
  | .DIVISION => (26, 27)
  | .STATE => (27, 29)
  | .COUNTY => (29, 32)
  | .COUNTYCC => (32, 34)
  | .COUNTYSC => (34, 36)
  | .COUSUB => (36, 41)
  | .COUSUBCC => (41, 43)
  | .COUSUBSC => (43, 45)
  | .PLACE => (45, 50)
  | .PLACECC => (50, 52)
  | .PLACESC => (52, 54)
  | .TRACT => (54, 60)
  | .BLKGRP => (60, 61)
  | .BLOCK => (61, 65)
  | .IUC => (65, 67)
  | .CONCIT => (67, 72)
  | .CONCITCC => (72, 74)
  | .CONCITSC => (74, 76)
  | .AIANHH => (76, 80)
  | .AIANHHFP => (80, 85)
  | .AIANHHCC => (85, 87)
  | .AIHHTLI => (87, 88)
  | .AITSCE => (88, 91)
  | .AITS => (91, 96)
  | .AITSCC => (96, 98)
  | .TTRACT => (98, 104)
  | .TBLKGRP => (104, 105)
  | .ANRC => (105, 110)
  | .ANRCCC => (110, 112)
  | .CBSA => (112, 117)
  | .CBASC => (117, 119)
  | .METDIV => (119, 124)
  | .CSA => (124, 127)
  | .NECTA => (127, 132)
  | .NECTASC => (132, 134)
  | .NECTADIV => (134, 139)
  | .CNECTA => (139, 142)
  | .CBSAPCI => (142, 143)
  | .NECTAPCI => (143, 144)
  | .UA => (144, 149)
  | .UASC => (149, 151)
  | .UATYPE => (151, 152)
  | .UR => (152, 153)
  | .CD => (153, 155)
  | .SLDU => (155, 158)
  | .SLDL => (158, 161)
  | .VTD => (161, 167)
  | .VTDI => (167, 168)
  | .RESERVE2 => (168, 171)
  | .ZCTA5 => (171, 176)
  | .SUBMCD => (176, 181)
  | .SUBMCDCC => (181, 183)
  | .SDELM => (183, 188)
  | .SDSEC => (188, 193)
  | .SDUNI => (193, 198)
  | .AREALAND => (198, 212)
  | .AREAWATR => (212, 226)
  | .NAME => (226, 316)
  | .FUNCSTAT => (316, 317)
  | .GCUNI => (317, 318)
  | .POP100 => (318, 327)
  | .HU100 => (327, 336)
  | .INTPTLAT => (336, 347)
  | .INTPTLON => (347, 359)
  | .LSADC => (359, 361)
  | .PARTFLAG => (361, 362)
  | .RESERVE3 => (362, 368)
  | .UGA => (368, 373)
  | .STATENS => (373, 381)
  | .COUNTYNS => (381, 389)
  | .COUSUBNS => (389, 397)
  | .PLACENS => (397, 405)
  | .CONCITNS => (405, 413)
  | .AIANHHNS => (413, 421)
  | .AITSNS => (421, 429)
  | .ANRCNS => (429, 437)
  | .SUBMCDNS => (437, 445)
  | .CD113 => (445, 447)
  | .CD114 => (447, 449)
  | .CD115 => (449, 451)
  | .SLDU2 => (451, 454)
  | .SLDU3 => (454, 457)
  | .SLDU4 => (457, 460)
  | .SLDL2 => (460, 463)
  | .SLDL3 => (463, 466)
  | .SLDL4 => (466, 469)
  | .AIANHHSC => (469, 471)
  | .CSASC => (471, 473)
  | .CNECTASC => (473, 475)
  | .MEMI => (475, 476)
  | .NMEMI => (476, 477)
  | .PUMA => (477, 482)
  | .RESERVED => (482, 500)

/-- `&line[get_span(field)]`: the spans all lie inside `0..500`, and the
theorems below assume a line of at least 500 bytes, where this total slice
coincides with Rust's panicking slice. -/
def spanSlice (line : List Char) (f : Field) : List Char :=
  (line.drop (get_span f).1).take ((get_span f).2 - (get_span f).1)

/-- Rust `str::trim` on ASCII input: drop whitespace from both ends. -/
def trimL (l : List Char) : List Char :=
  ((l.dropWhile Char.isWhitespace).reverse.dropWhile Char.isWhitespace).reverse

/-- `all_fields` (src/dataset.rs lines 178..184): every field with its raw
substring, in declared order. -/
def all_fields (line : List Char) : List (Field × List Char) :=
  FIELDS.map (fun f => (f, spanSlice line f))

/-- `all_fields_trimmed` (src/dataset.rs lines 186..192): every field with
its trimmed substring, in declared order. -/
def all_fields_trimmed (line : List Char) : List (Field × List Char) :=
  FIELDS.map (fun f => (f, trimL (spanSlice line f)))

/-- `fields` (src/dataset.rs lines 194..208): only the fields whose trimmed
substring is non-empty. -/
def fields (line : List Char) : List (Field × List Char) :=
  FIELDS.filterMap (fun f =>
    let span := trimL (spanSlice line f)
    if span.length > 0 then some (f, span) else none)

/-- A 500-byte all-blank line (witness input). -/
def exBlankLine : List Char := List.replicate 500 ' '

end GeoHdr

namespace PList

/-- All segments the extraction assigns to tabular file `n`, in order of
their appearance in the manifest. -/
def fileSegs (out : List (Table × List TableSegmentLocation)) (n : Nat) :
    List TableSegmentLocation :=
  ((out.map (fun p => p.2)).flatten).filter (fun loc => loc.file == n)

/-- The Indiana-style 2010 manifest's five table-information lines, with
location tokens already split on spaces. -/
def exManifest : List (String × List (List Char)) :=
  [("p1", ["1:71".data]), ("p2", ["1:73".data]), ("p3", ["2:71".data]),
   ("p4", ["2:73".data]), ("h1", ["2:3".data])]

/-- Final cursor map for `exManifest`. -/
def exCursors : CursorMap := [(1, 149), (2, 152)]

/-- Table locations for `exManifest`. -/
def exOut : List (Table × List TableSegmentLocation) :=
  [(.census2010 .P1, [⟨1, 5, 76⟩]), (.census2010 .P2, [⟨1, 76, 149⟩]),
   (.census2010 .P3, [⟨2, 5, 76⟩]), (.census2010 .P4, [⟨2, 76, 149⟩]),
   (.census2010 .H1, [⟨2, 149, 152⟩])]

end PList

/-! ## Theorems -/

namespace GeoHdr

/-- Helper: the `filter_map` building `fields` is the nonempty-filter of the
map building `all_fields_trimmed`, over any field list. -/
theorem filterMap_trim_eq_filter (line : List Char) (fs : List Field) :
    fs.filterMap (fun f =>
        let span := trimL (spanSlice line f)
        if span.length > 0 then some (f, span) else none)
      = (fs.map (fun f => (f, trimL (spanSlice line f)))).filter (fun p => !p.2.isEmpty) := by
  induction fs with
  | nil => rfl
  | cons f fs ih =>
    simp only [List.filterMap_cons, List.map_cons, List.filter_cons]
    cases h : trimL (spanSlice line f) with
    | nil => simpa [h] using ih
    | cons c cs => simpa [h] using ih

/-- Helper: tagging each element with data then projecting the tag is the
identity. -/
theorem map_fst_tag (fs : List Field) (g : Field → List Char) :
    (fs.map (fun f => (f, g f))).map Prod.fst = fs := by
  induction fs with
  | nil => rfl
  | cons f fs ih => simp [ih]

/-- Helper: projecting the tags of the `fields` filter-map yields a sublist
of the input field list. -/
theorem filterMap_fst_sublist (line : List Char) (fs : List Field) :
    ((fs.filterMap (fun f =>
        let span := trimL (spanSlice line f)
        if span.length > 0 then some (f, span) else none)).map Prod.fst).Sublist fs := by
  induction fs with
  | nil => simp
  | cons f fs ih =>
    simp only [List.filterMap_cons]
    by_cases h : (trimL (spanSlice line f)).length > 0
    · simpa [h] using ih.cons₂ f
    · simpa [h] using ih.cons f

/-- C8: for every input line of at least 500 bytes, `fields(line)` equals
`all_fields_trimmed(line)` filtered to exactly the entries whose trimmed
substring is non-empty, and all three views present their entries in the
declared catalog field order (`all_fields` and `all_fields_trimmed` list
every field in `FIELDS` order; `fields` lists a sublist of `FIELDS`). -/
theorem c8_fields_filter_order (line : List Char) (h : 500 ≤ line.length) :
    fields line = (all_fields_trimmed line).filter (fun p => !p.2.isEmpty)
    ∧ (all_fields line).map Prod.fst = FIELDS
    ∧ (all_fields_trimmed line).map Prod.fst = FIELDS
    ∧ ((fields line).map Prod.fst).Sublist FIELDS := by
  refine ⟨?_, ?_, ?_, ?_⟩
  · exact filterMap_trim_eq_filter line FIELDS
  · exact map_fst_tag FIELDS _
  · exact map_fst_tag FIELDS _
  · exact filterMap_fst_sublist line FIELDS

/-- Length of the witness line. -/
theorem exBlankLine_length : exBlankLine.length = 500 := List.length_replicate 500 ' '

/-- C8 witness: the theorem applied to a concrete 500-byte blank line. -/
theorem c8_witness :
    500 ≤ exBlankLine.length
    ∧ (fields exBlankLine = (all_fields_trimmed exBlankLine).filter (fun p => !p.2.isEmpty)
      ∧ (all_fields exBlankLine).map Prod.fst = FIELDS
      ∧ (all_fields_trimmed exBlankLine).map Prod.fst = FIELDS
      ∧ ((fields exBlankLine).map Prod.fst).Sublist FIELDS) :=
  ⟨by simp [exBlankLine_length], c8_fields_filter_order exBlankLine (by simp [exBlankLine_length])⟩

end GeoHdr

namespace PList

/-- C10: any whitespace-separated token of a table-information line's
location field that fails to parse as a `FILE:WIDTH` specifier is silently
discarded: processing the line with the token present gives exactly the same
cursor map, table and locations as processing it with the token removed, and
no error is reported for the dropped token. -/
theorem c10_bad_tokens_discarded (schema : Schema) (m : CursorMap) (name : String)
    (pre suf : List (List Char)) (t : List Char) (h : parseSpecifier t = none) :
    extractLine schema m name (pre ++ t :: suf) = extractLine schema m name (pre ++ suf) := by
  unfold extractLine
  have hspecs : (pre ++ t :: suf).filterMap parseSpecifier
      = (pre ++ suf).filterMap parseSpecifier := by
    simp [List.filterMap_append, List.filterMap_cons, h]
  rw [hspecs]

/-- C10 witness: dropping the colon-less token `9` from `p1|1:71 9|` changes
nothing. -/
theorem c10_witness :
    parseSpecifier "9".data = none
    ∧ extractLine Schema.census2010Pl94_171 [] "p1" (["1:71".data] ++ "9".data :: [])
        = extractLine Schema.census2010Pl94_171 [] "p1" (["1:71".data] ++ []) :=
  ⟨by decide, c10_bad_tokens_discarded Schema.census2010Pl94_171 [] "p1"
    ["1:71".data] [] "9".data (by decide)⟩

/-- Helper: `dedup` of a nonempty list is nonempty. -/
theorem dedupC_ne_nil : ∀ (l : List Nat), l ≠ [] → dedupC l ≠ [] := by
  intro l
  induction l with
  | nil => intro h; exact absurd rfl h
  | cons a rest ih =>
    intro _
    cases rest with
    | nil => simp [dedupC]
    | cons b rest2 =>
      by_cases hab : a = b
      · simpa [dedupC, hab] using ih (by simp)
      · simp [dedupC, hab]

/-- Helper: a constant nonempty list dedups to the single value. -/
theorem dedupC_all_eq (v : Nat) : ∀ (l : List Nat), l ≠ [] → (∀ x ∈ l, x = v) →
    dedupC l = [v] := by
  intro l
  induction l with
  | nil => intro h; exact absurd rfl h
  | cons a rest ih =>
    intro _ hall
    cases rest with
    | nil => simp [dedupC, hall a (by simp)]
    | cons b rest2 =>
      have ha : a = v := hall a (by simp)
      have hb : b = v := hall b (by simp)
      have hab2 : a = b := ha.trans hb.symm
      have hrec : dedupC (b :: rest2) = [v] :=
        ih (by simp) (fun x hx => hall x (List.mem_cons_of_mem a hx))
      simp only [dedupC]
      rw [if_pos hab2]
      exact hrec

/-- Helper: if `dedup` leaves a single element, the list was constant. -/
theorem dedupC_length_one : ∀ (l : List Nat), (dedupC l).length = 1 →
    ∀ x ∈ l, ∀ y ∈ l, x = y := by
  intro l
  induction l with
  | nil => simp
  | cons a rest ih =>
    intro h
    cases rest with
    | nil => simp
    | cons b rest2 =>
      by_cases hab : a = b
      · have h2 : (dedupC (b :: rest2)).length = 1 := by simpa [dedupC, hab] using h
        have hall := ih h2
        intro x hx y hy
        rcases List.mem_cons.mp hx with rfl | hx2
        · rcases List.mem_cons.mp hy with rfl | hy2
          · rfl
          · exact hab.trans (hall b (by simp) y hy2)
        · rcases List.mem_cons.mp hy with rfl | hy2
          · exact (hab.trans (hall b (by simp) x hx2)).symm
          · exact hall x hx2 y hy2
      · exfalso
        have hne : dedupC (b :: rest2) ≠ [] := dedupC_ne_nil (b :: rest2) (by simp)
        have hlen : (a :: dedupC (b :: rest2)).length = 1 := by
          simpa [dedupC, hab] using h
        have h0 : (dedupC (b :: rest2)).length = 0 := by
          simp only [List.length_cons] at hlen
          omega
        exact hne (List.length_eq_zero.mp h0)

end PList

namespace PList

/-- C6 counterexample: with tabular file 1 reporting 10 lines and the header
reporting 20, `convert_file_information` aborts via its `debug_assert!`
(a panic), which is not an `InconsistentRowCount` error value. -/
theorem c6_counterexample :
    convert_file_information [(1, ⟨"in000012010.pl", "d", 100, 10⟩)] ⟨"ingeo2010.pl", "d", 90, 20⟩
      = .error .panicked
    ∧ CensusError.panicked ≠ CensusError.inconsistentRowCount [10, 20] :=
  ⟨by rfl, by decide⟩

/-- C6 (amended): `convert_file_information` succeeds with the common value
when all files' `lines` values are equal; when any file disagrees it aborts
with an assertion failure (a panic in debug builds, modelled here), not with
a structured `InconsistentRowCount` error. -/
theorem c6_row_count (tabulars : List (Nat × FileInformation)) (header : FileInformation) :
    ((∀ p ∈ tabulars, p.2.rows = header.rows) →
      convert_file_information tabulars header
        = .ok (tabulars.map (fun p => (p.1, p.2.filename)), header.filename, header.rows))
    ∧ ((∃ p ∈ tabulars, p.2.rows ≠ header.rows) →
      convert_file_information tabulars header = .error .panicked) := by
  constructor
  · intro hall
    have hvec : ∀ x ∈ (tabulars.map (fun p => p.2.rows)) ++ [header.rows], x = header.rows := by
      intro x hx
      rcases List.mem_append.mp hx with hx1 | hx2
      · rcases List.mem_map.mp hx1 with ⟨p, hp, rfl⟩
        exact hall p hp
      · simpa using hx2
    have hded : dedupC ((tabulars.map (fun p => p.2.rows)) ++ [header.rows]) = [header.rows] :=
      dedupC_all_eq header.rows _ (by simp) hvec
    simp only [convert_file_information]
    rw [hded]
    simp
  · rintro ⟨p, hp, hne⟩
    have hlen : ¬ (dedupC ((tabulars.map (fun q => q.2.rows)) ++ [header.rows])).length = 1 := by
      intro h1
      exact hne (dedupC_length_one _ h1 p.2.rows
        (List.mem_append_left _ (List.mem_map.mpr ⟨p, hp, rfl⟩)) header.rows (by simp))
    simp only [convert_file_information]
    rw [if_neg hlen]

/-- C6 witness: the amended theorem applied to a one-file manifest whose
counts agree at 42. -/
theorem c6_witness :
    (∀ p ∈ [((1 : Nat), (⟨"in000012010.pl", "d", 100, 42⟩ : FileInformation))],
      p.2.rows = (⟨"ingeo2010.pl", "d", 90, 42⟩ : FileInformation).rows)
    ∧ convert_file_information [(1, ⟨"in000012010.pl", "d", 100, 42⟩)] ⟨"ingeo2010.pl", "d", 90, 42⟩
        = .ok ([(1, "in000012010.pl")], "ingeo2010.pl", 42) :=
  ⟨by decide, (c6_row_count [(1, ⟨"in000012010.pl", "d", 100, 42⟩)] ⟨"ingeo2010.pl", "d", 90, 42⟩).1
    (by decide)⟩

end PList

namespace GeoLookup

/-- C7 counterexample: looking up a GEOID absent from the built header index
panics (`Option::unwrap` on `None`); the result is a panic, not a structured
`UnknownGeoid` error value. -/
theorem c7_counterexample :
    get_logical_record_number_for_geoid (some exHeaderIndex) "999999999999999".data
      = .error .panicked
    ∧ CensusError.panicked ≠ CensusError.unknownGeoid "999999999999999".data :=
  ⟨by rfl, by decide⟩

/-- C7 (amended): with a built header index,
`get_logical_record_number_for_geoid` returns the indexed logical record
number when the GEOID is present, and panics (`unwrap` on `None`) — rather
than returning a structured `UnknownGeoid` error — when it is absent. -/
theorem c7_lookup_behavior (idx : List Char → Option (Nat × Nat)) (g : List Char) :
    (∀ p, idx g = some p →
      get_logical_record_number_for_geoid (some idx) g = .ok p.1)
    ∧ (idx g = none →
      get_logical_record_number_for_geoid (some idx) g = .error .panicked) := by
  constructor
  · intro p hp
    simp [get_logical_record_number_for_geoid, hp]
  · intro hp
    simp [get_logical_record_number_for_geoid, hp]

/-- C7 witness: the amended theorem applied to the Indiana block GEOID. -/
theorem c7_witness :
    exHeaderIndex "181570052001013".data = some (335180, 77)
    ∧ get_logical_record_number_for_geoid (some exHeaderIndex) "181570052001013".data
        = .ok 335180 :=
  ⟨by decide, (c7_lookup_behavior exHeaderIndex "181570052001013".data).1 (335180, 77) (by decide)⟩

end GeoLookup

namespace TabIdx

/-- Helper: the indexing loop succeeds whenever every record's column 4
parses. -/
theorem tabIdxAux_isSome : ∀ (recs : List (Nat × List String)),
    (∀ p ∈ recs, (col4 p.2).isSome = true) → ∀ m, (tabIdxAux recs m).isSome = true := by
  intro recs
  induction recs with
  | nil => intro _ m; rfl
  | cons pr rest ih =>
    intro hwf m
    obtain ⟨off, r⟩ := pr
    have hc : (col4 r).isSome = true := hwf (off, r) (by simp)
    rcases Option.isSome_iff_exists.mp hc with ⟨v, hv⟩
    have : tabIdxAux ((off, r) :: rest) m
        = tabIdxAux rest (fun x => if x = v then some off else m x) := by
      simp [tabIdxAux, hv]
    rw [this]
    exact ih (fun p hp => hwf p (List.mem_cons_of_mem _ hp)) _

/-- Helper: the built map looks up to the last matching record's offset,
falling back to the initial map. -/
theorem tabIdxAux_lookup : ∀ (recs : List (Nat × List String)) (m m' : Nat → Option Nat),
    tabIdxAux recs m = some m' → ∀ l, m' l = (lastOff l recs <|> m l) := by
  intro recs
  induction recs with
  | nil =>
    intro m m' h l
    have hm : m = m' := by simpa [tabIdxAux] using h
    simp [lastOff, hm]
  | cons pr rest ih =>
    intro m m' h l
    obtain ⟨off, r⟩ := pr
    cases hc : col4 r with
    | none => rw [tabIdxAux] at h; simp [hc] at h
    | some v =>
      have h2 : tabIdxAux rest (fun x => if x = v then some off else m x) = some m' := by
        rw [tabIdxAux] at h
        simpa [hc] using h
      have hl := ih _ m' h2 l
      rw [lastOff]
      cases hrest : lastOff l rest with
      | some o => simp [hrest] at hl ⊢; exact hl
      | none =>
        simp [hrest] at hl ⊢
        rw [hl, hc]
        by_cases hv : v = l
        · subst hv; simp
        · simp [hv, Ne.symm hv]

/-- Helper: no matching record means no last offset. -/
theorem lastOff_none (l : Nat) : ∀ (recs : List (Nat × List String)),
    (∀ p ∈ recs, col4 p.2 ≠ some l) → lastOff l recs = none := by
  intro recs
  induction recs with
  | nil => intro _; rfl
  | cons pr rest ih =>
    intro hall
    obtain ⟨off, r⟩ := pr
    have hrest : lastOff l rest = none := ih (fun p hp => hall p (List.mem_cons_of_mem _ hp))
    have hr : col4 r ≠ some l := hall (off, r) (by simp)
    simp [lastOff, hrest, hr]

/-- Helper: a matching record after which no record matches is the last
match. -/
theorem lastOff_last (l : Nat) : ∀ (recs : List (Nat × List String)) (j off : Nat)
    (r : List String), recs.get? j = some (off, r) → col4 r = some l →
    (∀ k p, j < k → recs.get? k = some p → col4 p.2 ≠ some l) →
    lastOff l recs = some off := by
  intro recs
  induction recs with
  | nil => intro j off r hj; simp at hj
  | cons pr rest ih =>
    intro j off r hj hv hlast
    cases j with
    | zero =>
      have hpr : pr = (off, r) := by simpa using hj
      subst hpr
      have hrest : lastOff l rest = none := by
        apply lastOff_none
        intro p hp
        rcases List.mem_iff_get?.mp hp with ⟨k, hk⟩
        exact hlast (k + 1) p (Nat.succ_pos k) (by simpa using hk)
      simp [lastOff, hrest, hv]
    | succ j0 =>
      have hj0 : rest.get? j0 = some (off, r) := by simpa using hj
      have hlast0 : ∀ k p, j0 < k → rest.get? k = some p → col4 p.2 ≠ some l := by
        intro k p hk hkp
        exact hlast (k + 1) p (Nat.succ_lt_succ hk) (by simpa using hkp)
      have hrest := ih j0 off r hj0 hv hlast0
      simp [lastOff, hrest]

/-- C9: when a tabular file contains two CSV records whose column 4 carries
the same LOGRECNO `l`, `index()` raises no error, and the resulting position
index maps `l` to the byte offset of the record appearing later in the file
— the later insertion silently overwrites the earlier one. -/
theorem c9_duplicate_logrecno_last_wins
    (recs : List (Nat × List String)) (i j l offi offj : Nat) (ri rj : List String)
    (hwf : ∀ p ∈ recs, (col4 p.2).isSome = true)
    (hij : i < j)
    (hi : recs.get? i = some (offi, ri)) (hvi : col4 ri = some l)
    (hj : recs.get? j = some (offj, rj)) (hvj : col4 rj = some l)
    (hlast : ∀ k p, j < k → recs.get? k = some p → col4 p.2 ≠ some l) :
    (tabularIndex recs).map (fun m => m l) = some (some offj) := by
  have hsome := tabIdxAux_isSome recs hwf (fun _ => none)
  rcases Option.isSome_iff_exists.mp hsome with ⟨m, hm⟩
  have hlk := tabIdxAux_lookup recs _ m hm l
  have hlo := lastOff_last l recs j offj rj hj hvj hlast
  have : tabularIndex recs = some m := hm
  rw [this]
  simp only [Option.map_some']
  rw [hlk, hlo]
  rfl

/-- C9 witness: two records with LOGRECNO 1 at offsets 0 and 120; the index
returns 120. -/
theorem c9_witness :
    (∀ p ∈ exDupRecs, (col4 p.2).isSome = true)
    ∧ (0 : Nat) < 1
    ∧ exDupRecs.get? 0 = some (0, ["PLST", "IN", "000", "01", "1", "11", "12"])
    ∧ col4 ["PLST", "IN", "000", "01", "1", "11", "12"] = some 1
    ∧ exDupRecs.get? 1 = some (120, ["PLST", "IN", "000", "01", "1", "21", "22"])
    ∧ col4 ["PLST", "IN", "000", "01", "1", "21", "22"] = some 1
    ∧ (∀ k p, 1 < k → exDupRecs.get? k = some p → col4 p.2 ≠ some 1)
    ∧ (tabularIndex exDupRecs).map (fun m => m 1) = some (some 120) := by
  have hlast : ∀ k (p : Nat × List String), 1 < k → exDupRecs.get? k = some p →
      col4 p.2 ≠ some 1 := by
    intro k p hk hkp
    have hlen : exDupRecs.length ≤ k := by
      have : exDupRecs.length = 2 := by decide
      omega
    rw [List.get?_eq_none.mpr hlen] at hkp
    cases hkp
  refine ⟨by decide, by decide, by decide, by decide, by decide, by decide, hlast, ?_⟩
  exact c9_duplicate_logrecno_last_wins exDupRecs 0 1 1 0 120
    ["PLST", "IN", "000", "01", "1", "11", "12"] ["PLST", "IN", "000", "01", "1", "21", "22"]
    (by decide) (by decide) (by decide) (by decide) (by decide) (by decide) hlast

end TabIdx

namespace GeoIdx

/-- Helper: exhaustive description of one geographic-header loop iteration:
either the line's BLOCK span is blank and nothing changes, or the line's
entry (GEOID from the four spans, parsed LOGRECNO, current offset) is
appended. -/
theorem geoStep_cases (pos : Nat) (line : List Char) (acc acc' : List GeoEntry)
    (h : geoStep pos line acc = some acc') :
    (acc' = acc ∧ sliceO line 61 65 = some (blankN 4))
    ∨ (∃ s c t b lr n, sliceO line 27 29 = some s ∧ sliceO line 29 32 = some c
        ∧ sliceO line 54 60 = some t ∧ sliceO line 61 65 = some b ∧ b ≠ blankN 4
        ∧ sliceO line 18 25 = some lr ∧ parseU64 lr = some n
        ∧ acc' = acc ++ [⟨s ++ c ++ t ++ b, n, pos⟩]) := by
  cases h18 : sliceO line 18 25 with
  | none => simp [geoStep, h18] at h
  | some lr =>
  cases h27 : sliceO line 27 29 with
  | none => simp [geoStep, h18, h27] at h
  | some s =>
  cases h29 : sliceO line 29 32 with
  | none => simp [geoStep, h18, h27, h29] at h
  | some c =>
  cases h54 : sliceO line 54 60 with
  | none => simp [geoStep, h18, h27, h29, h54] at h
  | some t =>
  cases h61 : sliceO line 61 65 with
  | none => simp [geoStep, h18, h27, h29, h54, h61] at h
  | some b =>
  by_cases hb : b = blankN 4
  · left
    subst hb
    have h2 : acc' = acc := by
      simp [geoStep, h18, h27, h29, h54, h61] at h
      first
      | exact h.symm
      | exact h
    exact ⟨h2, rfl⟩
  · right
    simp only [geoStep, h18, h27, h29, h54, h61, Option.some_bind] at h
    have hc1 : ¬(c = blankN 3 ∧ t = blankN 6 ∧ b = blankN 4) := fun hh => hb hh.2.2
    have hc2 : ¬(t = blankN 6 ∧ b = blankN 4) := fun hh => hb hh.2
    simp [geoStep, h18, h27, h29, h54, h61, hc1, hc2, hb] at h
    cases hn : parseU64 lr with
    | none => rw [hn] at h; simp at h
    | some n =>
      rw [hn] at h
      simp only [Option.some_bind'] at h
      by_cases hd : ∃ x ∈ acc, x.geoid = s ++ (c ++ (t ++ b))
      · rw [if_pos hd] at h
        cases h
      · rw [if_neg hd] at h
        refine ⟨s, c, t, b, lr, n, rfl, rfl, rfl, rfl, hb, rfl, hn, ?_⟩
        have h2 : acc ++ [⟨s ++ (c ++ (t ++ b)), n, pos⟩] = acc' := Option.some_inj.mp h
        rw [← h2]
        simp [List.append_assoc]

end GeoIdx

namespace GeoIdx

/-- Helper: each entry after one step was already present or records the
current line's offset and parsed LOGRECNO. -/
theorem geoStep_mem (pos : Nat) (line : List Char) (acc acc' : List GeoEntry)
    (h : geoStep pos line acc = some acc') :
    ∀ e ∈ acc', e ∈ acc
      ∨ (e.offset = pos ∧ ∃ lr, sliceO line 18 25 = some lr ∧ parseU64 lr = some e.logrecno) := by
  rcases geoStep_cases pos line acc acc' h with ⟨heq, _⟩ |
    ⟨s, c, t, b, lr, n, hs, hc, ht, hbq, hbne, hlr, hn, hacc⟩
  · intro e he
    left
    exact heq ▸ he
  · intro e he
    rw [hacc] at he
    rcases List.mem_append.mp he with h1 | h2
    · left
      exact h1
    · right
      have he2 : e = ⟨s ++ c ++ t ++ b, n, pos⟩ := by simpa using h2
      subst he2
      exact ⟨rfl, lr, hlr, hn⟩

/-- Helper: loop invariant for the geographic indexing loop, for an arbitrary
starting offset and accumulator. -/
theorem indexGeoAux_mem : ∀ (lines : List (List Char)) (pos : Nat) (acc res : List GeoEntry),
    indexGeoAux lines pos acc = some res →
    ∀ e ∈ res, e ∈ acc ∨ ∃ i li, lines.get? i = some li
      ∧ e.offset = pos + ((lines.take i).map List.length).sum
      ∧ ∃ lr, sliceO li 18 25 = some lr ∧ parseU64 lr = some e.logrecno := by
  intro lines
  induction lines with
  | nil =>
    intro pos acc res h e he
    left
    have hacc : acc = res := by simpa [indexGeoAux] using h
    exact hacc ▸ he
  | cons line rest ih =>
    intro pos acc res h e he
    cases hstep : geoStep pos line acc with
    | none => simp [indexGeoAux, hstep] at h
    | some acc1 =>
      have h2 : indexGeoAux rest (pos + line.length) acc1 = some res := by
        simpa [indexGeoAux, hstep] using h
      rcases ih (pos + line.length) acc1 res h2 e he with hin | ⟨i, li, hget, hoff, hlr⟩
      · rcases geoStep_mem pos line acc acc1 hstep e hin with hin0 | ⟨hoffe, lr, hsl, hp⟩
        · left
          exact hin0
        · right
          exact ⟨0, line, rfl, by simpa using hoffe, lr, hsl, hp⟩
      · right
        refine ⟨i + 1, li, by simpa using hget, ?_, hlr⟩
        rw [hoff]
        simp [List.take_succ_cons, Nat.add_assoc]

/-- C2: after a successful geographic-header indexing pass, every indexed
entry's recorded offset is the byte offset of the start of some line of the
file (the total length of the preceding lines), and parsing bytes 18..25 of
that line as an unsigned integer yields exactly the indexed logical record
number. -/
theorem c2_geo_index_offset_invariant (lines : List (List Char)) (res : List GeoEntry)
    (h : indexGeo lines = some res) :
    ∀ e ∈ res, ∃ i li, lines.get? i = some li
      ∧ e.offset = ((lines.take i).map List.length).sum
      ∧ ∃ lr, sliceO li 18 25 = some lr ∧ parseU64 lr = some e.logrecno := by
  intro e he
  rcases indexGeoAux_mem lines 0 [] res h e he with h0 | ⟨i, li, hget, hoff, hlr⟩
  · cases h0
  · exact ⟨i, li, hget, by simpa using hoff, hlr⟩

/-- C2 witness: the theorem applied to a one-line header file. -/
theorem c2_witness :
    indexGeo [exGeoLine] = some [exGeoEntry]
    ∧ ∀ e ∈ [exGeoEntry], ∃ i li, [exGeoLine].get? i = some li
      ∧ e.offset = (([exGeoLine].take i).map List.length).sum
      ∧ ∃ lr, sliceO li 18 25 = some lr ∧ parseU64 lr = some e.logrecno :=
  ⟨by decide, c2_geo_index_offset_invariant [exGeoLine] [exGeoEntry] (by decide)⟩

end GeoIdx

namespace GeoIdx

/-- C3 counterexample: the line `exGeoLineBlankCounty` has a blank COUNTY
span (so not all four of STATE, COUNTY, TRACT, BLOCK are non-blank), yet the
indexing pass inserts it into the GEOID index, because the code's filter
tests only BLOCK.  This refutes "inserted iff all four spans are non-blank"
as stated. -/
theorem c3_counterexample :
    indexGeo [exGeoLineBlankCounty] = some [exGeoEntryBlankCounty]
    ∧ ¬ AllFourNonBlank exGeoLineBlankCounty :=
  ⟨by decide, by decide⟩

/-- C3 (amended): during `index()`, a geographic header line is inserted into
the GEOID index if and only if its BLOCK span (bytes 61..65) is not all
spaces: a successful step leaves the index unchanged exactly when BLOCK is
blank, and otherwise appends the line's entry. -/
theorem c3_block_filter (pos : Nat) (line : List Char) (acc acc' : List GeoEntry)
    (h : geoStep pos line acc = some acc') :
    (acc' = acc ↔ sliceO line 61 65 = some (blankN 4)) := by
  rcases geoStep_cases pos line acc acc' h with ⟨heq, hbl⟩ |
    ⟨s, c, t, b, lr, n, hs, hc, ht, hbq, hbne, hlr, hn, hacc⟩
  · exact ⟨fun _ => hbl, fun _ => heq⟩
  · constructor
    · intro he
      rw [he] at hacc
      exact absurd hacc.symm (by simp)
    · intro hbl
      rw [hbq] at hbl
      exact absurd (Option.some_inj.mp hbl) hbne
/-- C3 witness for the amended theorem: a concrete block-level line with
non-blank BLOCK is appended (the index changes), matching the iff. -/
theorem c3_witness :
    geoStep 0 exGeoLineBlankCounty [] = some [exGeoEntryBlankCounty]
    ∧ (([exGeoEntryBlankCounty] : List GeoEntry) = []
        ↔ sliceO exGeoLineBlankCounty 61 65 = some (blankN 4)) :=
  ⟨by decide, c3_block_filter 0 exGeoLineBlankCounty [] [exGeoEntryBlankCounty] (by decide)⟩

end GeoIdx

namespace PList

/-- Helper: lookup after insert. -/
theorem mapFind_mapInsert : ∀ (m : CursorMap) (k v k' : Nat),
    mapFind (mapInsert m k v) k' = if k = k' then some v else mapFind m k' := by
  intro m
  induction m with
  | nil => intro k v k'; simp [mapInsert, mapFind]
  | cons p rest ih =>
    intro k v k'
    obtain ⟨k0, v0⟩ := p
    by_cases h0 : k0 = k
    · subst h0
      simp only [mapInsert, if_pos rfl]
      by_cases h1 : k0 = k'
      · simp [mapFind, h1]
      · simp [mapFind, h1]
    · by_cases h1 : k0 = k'
      · subst h1
        have h0' : ¬ k = k0 := fun hh => h0 hh.symm
        simp [mapInsert, mapFind, h0, h0']
      · simp [mapInsert, mapFind, h0, h1, ih]

/-- Helper: the location emitted for one specifier starts at the file's
current cursor (5 on first use) and spans exactly `columns`. -/
theorem allocSeg_loc (m : CursorMap) (sp : TableSegmentSpecifier) :
    (allocSeg m sp).2 = ⟨sp.file, (mapFind m sp.file).getD 5,
      (mapFind m sp.file).getD 5 + sp.columns⟩ := by
  cases hf : mapFind m sp.file with
  | none => simp [allocSeg, hf, mapFind_mapInsert]
  | some v => simp [allocSeg, hf]

/-- Helper: the cursor map after one specifier. -/
theorem allocSeg_map (m : CursorMap) (sp : TableSegmentSpecifier) (k : Nat) :
    mapFind (allocSeg m sp).1 k
      = if sp.file = k then some ((mapFind m sp.file).getD 5 + sp.columns)
        else mapFind m k := by
  cases hf : mapFind m sp.file with
  | none =>
    by_cases hk : sp.file = k
    · subst hk
      simp [allocSeg, hf, mapFind_mapInsert]
    · simp [allocSeg, hf, mapFind_mapInsert, hk]
  | some v =>
    by_cases hk : sp.file = k
    · subst hk
      simp [allocSeg, hf, mapFind_mapInsert]
    · simp [allocSeg, hf, mapFind_mapInsert, hk]

/-- Helper: each emitted location carries its specifier's file and width. -/
theorem allocSegs_fw : ∀ (specs : List TableSegmentSpecifier) (m : CursorMap),
    (allocSegs m specs).2.map (fun loc => (loc.file, loc.stop - loc.start))
      = specs.map (fun sp => (sp.file, sp.columns)) := by
  intro specs
  induction specs with
  | nil => intro m; rfl
  | cons sp rest ih =>
    intro m
    simp only [allocSegs, List.map_cons]
    rw [allocSeg_loc]
    simp [ih]

/-- Helper: the cursor for file `k` after a run of specifiers: untouched when
`k` never occurs, else 5-or-current plus the total width of `k`'s
specifiers. -/
theorem allocSegs_map : ∀ (specs : List TableSegmentSpecifier) (m : CursorMap) (k : Nat),
    mapFind (allocSegs m specs).1 k
      = if specs.any (fun sp => sp.file == k) then
          some ((mapFind m k).getD 5
            + ((specs.filter (fun sp => sp.file == k)).map (fun sp => sp.columns)).sum)
        else mapFind m k := by
  intro specs
  induction specs with
  | nil => intro m k; simp [allocSegs]
  | cons sp rest ih =>
    intro m k
    simp only [allocSegs]
    rw [ih]
    by_cases hk : sp.file = k
    · subst hk
      rw [allocSeg_map]
      simp only [if_pos rfl, List.any_cons, List.filter_cons, beq_self_eq_true, if_pos,
        Bool.true_or, List.map_cons, List.sum_cons, Option.getD_some]
      by_cases hr : rest.any (fun q => q.file == sp.file) = true
      · simp [hr, Nat.add_assoc]
      · simp only [Bool.not_eq_true] at hr
        have hnil : rest.filter (fun q => q.file == sp.file) = [] := by
          apply List.filter_eq_nil_iff.mpr
          exact List.any_eq_false.mp hr
        simp [hr, allocSeg_map, hnil]
    · have hbeq : (sp.file == k) = false := beq_eq_false_iff_ne.mpr hk
      rw [allocSeg_map]
      simp [hbeq, hk, List.filter_cons]

/-- Helper: the locations a run of specifiers assigns to file `n`, in
emission order, form the contiguous ladder of `n`'s widths starting at `n`'s
current cursor (5 on first use). -/
theorem allocSegs_filter_ladder : ∀ (specs : List TableSegmentSpecifier) (m : CursorMap) (n : Nat),
    (allocSegs m specs).2.filter (fun loc => loc.file == n)
      = ladder n ((mapFind m n).getD 5)
          ((specs.filter (fun sp => sp.file == n)).map (fun sp => sp.columns)) := by
  intro specs
  induction specs with
  | nil => intro m n; simp [allocSegs, ladder]
  | cons sp rest ih =>
    intro m n
    simp only [allocSegs, List.filter_cons]
    rw [allocSeg_loc]
    by_cases hk : sp.file = n
    · subst hk
      simp only [List.filter_cons, beq_self_eq_true, if_pos, List.map_cons, ladder]
      rw [ih]
      rw [allocSeg_map]
      simp
    · have hbeq : (sp.file == n) = false := beq_eq_false_iff_ne.mpr hk
      simp only [hbeq, Bool.false_eq_true, if_false, List.filter_cons, List.map_cons]
      rw [ih]
      rw [allocSeg_map]
      simp [hk, hbeq]

/-- Helper: allocation over a concatenation threads the cursor map. -/
theorem allocSegs_append : ∀ (a b : List TableSegmentSpecifier) (m : CursorMap),
    allocSegs m (a ++ b)
      = ((allocSegs (allocSegs m a).1 b).1,
         (allocSegs m a).2 ++ (allocSegs (allocSegs m a).1 b).2) := by
  intro a
  induction a with
  | nil => intro b m; simp [allocSegs]
  | cons sp rest ih =>
    intro b m
    simp only [List.cons_append, allocSegs, List.append_eq]
    rw [ih]

end PList

namespace PList

/-- Helper: a ladder has one rung per width. -/
theorem ladder_length (n : Nat) : ∀ (ws : List Nat) (c : Nat), (ladder n c ws).length = ws.length := by
  intro ws
  induction ws with
  | nil => intro c; rfl
  | cons w ws ih => intro c; simp [ladder, ih]

/-- Helper: the `k`-th rung of a ladder runs between consecutive prefix sums
of the widths. -/
theorem ladder_getD (n : Nat) : ∀ (ws : List Nat) (k c : Nat), k < ws.length →
    (ladder n c ws).getD k ⟨0, 0, 0⟩
      = ⟨n, c + ((ws.take k).sum), c + ((ws.take (k + 1)).sum)⟩ := by
  intro ws
  induction ws with
  | nil => intro k c hk; cases hk
  | cons w ws ih =>
    intro k c hk
    cases k with
    | zero => simp [ladder]
    | succ k0 =>
      have hk0 : k0 < ws.length := Nat.lt_of_succ_lt_succ hk
      simp only [ladder, List.getD_cons_succ]
      rw [ih k0 (c + w) hk0]
      simp only [List.take_succ_cons, List.sum_cons, TableSegmentLocation.mk.injEq,
        true_and]
      omega

/-- Helper: prefix sums of a `Nat` list are monotone. -/
theorem sum_take_mono (ws : List Nat) (a b : Nat) (hab : a ≤ b) :
    (ws.take a).sum ≤ (ws.take b).sum := by
  have h1 : (ws.take b).take a = ws.take a := by
    rw [List.take_take, Nat.min_eq_left hab]
  calc (ws.take a).sum = ((ws.take b).take a).sum := by rw [h1]
    _ ≤ ((ws.take b).take a).sum + ((ws.take b).drop a).sum := Nat.le_add_right _ _
    _ = (ws.take b).sum := by rw [← List.sum_append, List.take_append_drop]

/-- Helper: inversion of one successful `extractLine`. -/
theorem extractLine_inv (schema : Schema) (m : CursorMap) (name : String)
    (toks : List (List Char)) (m1 : CursorMap) (tbl : Table)
    (locs : List TableSegmentLocation)
    (h : extractLine schema m name toks = some (m1, tbl, locs)) :
    tableOf schema name = some tbl
    ∧ m1 = (allocSegs m (toks.filterMap parseSpecifier)).1
    ∧ locs = (allocSegs m (toks.filterMap parseSpecifier)).2 := by
  cases ht : tableOf schema name with
  | none =>
    simp only [extractLine, ht] at h
    exact Option.noConfusion h
  | some tbl2 =>
    cases halloc : allocSegs m (toks.filterMap parseSpecifier) with
    | mk m2 locs2 =>
      simp only [extractLine, ht, halloc] at h
      injection h with h1
      injection h1 with ha h2
      injection h2 with hb hc
      exact ⟨congrArg some hb, ha.symm, hc.symm⟩

/-- Helper: inversion of one successful `extractLines` step. -/
theorem extractLines_cons_inv (schema : Schema) (name : String) (toks : List (List Char))
    (rest : List (String × List (List Char))) (m mF : CursorMap)
    (out : List (Table × List TableSegmentLocation))
    (h : extractLines schema ((name, toks) :: rest) m = some (mF, out)) :
    ∃ m1 tbl locs out2,
      extractLine schema m name toks = some (m1, tbl, locs)
      ∧ extractLines schema rest m1 = some (mF, out2)
      ∧ out = (tbl, locs) :: out2 := by
  cases he : extractLine schema m name toks with
  | none =>
    simp only [extractLines, he] at h
    exact Option.noConfusion h
  | some r1 =>
    obtain ⟨m1, tbl, locs⟩ := r1
    simp only [extractLines, he] at h
    cases hr : extractLines schema rest m1 with
    | none =>
      simp only [hr] at h
      exact Option.noConfusion h
    | some r2 =>
      obtain ⟨m2, out2⟩ := r2
      simp only [hr] at h
      injection h with h1
      injection h1 with ha hb
      exact ⟨m1, tbl, locs, out2, rfl, ha ▸ hr, hb.symm⟩

/-- Helper: inversion of the empty `extractLines`. -/
theorem extractLines_nil_inv (schema : Schema) (m mF : CursorMap)
    (out : List (Table × List TableSegmentLocation))
    (h : extractLines schema [] m = some (mF, out)) : mF = m ∧ out = [] := by
  simp only [extractLines, Option.some_inj] at h
  injection h with ha hb
  exact ⟨ha.symm, hb.symm⟩

/-- Helper: a successful extraction yields one output entry per
table-information line. -/
theorem extractLines_length (schema : Schema) :
    ∀ (lines : List (String × List (List Char))) (m mF : CursorMap)
      (out : List (Table × List TableSegmentLocation)),
    extractLines schema lines m = some (mF, out) → out.length = lines.length := by
  intro lines
  induction lines with
  | nil =>
    intro m mF out h
    rw [(extractLines_nil_inv schema m mF out h).2]
    rfl
  | cons line rest ih =>
    intro m mF out h
    obtain ⟨name, toks⟩ := line
    rcases extractLines_cons_inv schema name toks rest m mF out h with
      ⟨m1, tbl, locs, out2, he, hr, hout⟩
    rw [hout]
    simp [ih m1 mF out2 hr]

/-- Helper: a successful extraction's flattened segment list and final cursor
map are those of one allocation run over all parsed specifiers in manifest
order. -/
theorem extractLines_flatten (schema : Schema) :
    ∀ (lines : List (String × List (List Char))) (m mF : CursorMap)
      (out : List (Table × List TableSegmentLocation)),
    extractLines schema lines m = some (mF, out) →
    ((out.map (fun p => p.2)).flatten = (allocSegs m (allSpecs lines)).2
      ∧ mF = (allocSegs m (allSpecs lines)).1) := by
  intro lines
  induction lines with
  | nil =>
    intro m mF out h
    obtain ⟨hm, hout⟩ := extractLines_nil_inv schema m mF out h
    subst hm
    subst hout
    simp [allSpecs, allocSegs]
  | cons line rest ih =>
    intro m mF out h
    obtain ⟨name, toks⟩ := line
    rcases extractLines_cons_inv schema name toks rest m mF out h with
      ⟨m1, tbl, locs, out2, he, hr, hout⟩
    obtain ⟨_, hm1, hlocs⟩ := extractLine_inv schema m name toks m1 tbl locs he
    have hrec := ih m1 mF out2 hr
    have hall : allSpecs ((name, toks) :: rest)
        = toks.filterMap parseSpecifier ++ allSpecs rest := by
      simp [allSpecs]
    subst hout
    constructor
    · simp only [List.map_cons, List.flatten_cons]
      rw [hrec.1, hall, allocSegs_append, hlocs, hm1]
    · rw [hrec.2, hall, allocSegs_append, hm1]

/-- Helper: each output line's locations are an allocation run (from some
intermediate cursor map) over that line's parsed specifiers. -/
theorem extractLines_line (schema : Schema) :
    ∀ (lines : List (String × List (List Char))) (m mF : CursorMap)
      (out : List (Table × List TableSegmentLocation)),
    extractLines schema lines m = some (mF, out) →
    ∀ i, i < lines.length →
      ∃ m', (out.getD i (.census2010 .P1, [])).2
        = (allocSegs m' ((lines.getD i ("", [])).2.filterMap parseSpecifier)).2 := by
  intro lines
  induction lines with
  | nil => intro m mF out h i hi; cases hi
  | cons line rest ih =>
    intro m mF out h i hi
    obtain ⟨name, toks⟩ := line
    rcases extractLines_cons_inv schema name toks rest m mF out h with
      ⟨m1, tbl, locs, out2, he, hr, hout⟩
    obtain ⟨_, _, hlocs⟩ := extractLine_inv schema m name toks m1 tbl locs he
    subst hout
    cases i with
    | zero => exact ⟨m, by simpa using hlocs⟩
    | succ i0 =>
      have hi0 : i0 < rest.length := Nat.lt_of_succ_lt_succ hi
      rcases ih m1 mF out2 hr i0 hi0 with ⟨m', hm'⟩
      exact ⟨m', by simpa using hm'⟩

end PList

namespace PList

/-- C4: for every accepted manifest, each emitted segment's range has
exactly its specifier's width in its specifier's file (so per table the
total range length equals the total specified columns), and after all
table-information lines the cursor for file `n` is `5` plus the sum of the
widths of all segments assigned to `n` (and absent when `n` is never used —
the cursor is created at 5 on first use). -/
theorem c4_cursor_arithmetic (schema : Schema) (lines : List (String × List (List Char)))
    (mF : CursorMap) (out : List (Table × List TableSegmentLocation)) (n : Nat)
    (h : extract_table_locations schema lines = some (mF, out)) :
    out.length = lines.length
    ∧ (∀ i, i < lines.length →
        ((out.getD i (.census2010 .P1, [])).2).map (fun loc => (loc.file, loc.stop - loc.start))
          = (((lines.getD i ("", [])).2).filterMap parseSpecifier).map
              (fun sp => (sp.file, sp.columns)))
    ∧ (∀ i, i < lines.length →
        (((out.getD i (.census2010 .P1, [])).2).map (fun loc => loc.stop - loc.start)).sum
          = ((((lines.getD i ("", [])).2).filterMap parseSpecifier).map
              (fun sp => sp.columns)).sum)
    ∧ mapFind mF n
        = (if (allSpecs lines).any (fun sp => sp.file == n) then
            some (5 + (((allSpecs lines).filter (fun sp => sp.file == n)).map
              (fun sp => sp.columns)).sum)
          else none) := by
  refine ⟨extractLines_length schema lines [] mF out h, ?_, ?_, ?_⟩
  · intro i hi
    rcases extractLines_line schema lines [] mF out h i hi with ⟨m', hm'⟩
    rw [hm', allocSegs_fw]
  · intro i hi
    rcases extractLines_line schema lines [] mF out h i hi with ⟨m', hm'⟩
    rw [hm']
    have hfw := allocSegs_fw ((lines.getD i ("", [])).2.filterMap parseSpecifier) m'
    have h2 := congrArg (fun l => (List.map Prod.snd l).sum) hfw
    simpa [List.map_map, Function.comp] using h2
  · have hF := (extractLines_flatten schema lines [] mF out h).2
    rw [hF, allocSegs_map]
    simp [mapFind]

/-- C4 witness: the theorem applied to the five-line Indiana-style manifest,
file 2: final cursor `152 = 5 + 71 + 73 + 3`. -/
theorem c4_witness :
    extract_table_locations Schema.census2010Pl94_171 exManifest = some (exCursors, exOut)
    ∧ (exOut.length = exManifest.length
      ∧ (∀ i, i < exManifest.length →
          ((exOut.getD i (.census2010 .P1, [])).2).map (fun loc => (loc.file, loc.stop - loc.start))
            = (((exManifest.getD i ("", [])).2).filterMap parseSpecifier).map
                (fun sp => (sp.file, sp.columns)))
      ∧ (∀ i, i < exManifest.length →
          (((exOut.getD i (.census2010 .P1, [])).2).map (fun loc => loc.stop - loc.start)).sum
            = ((((exManifest.getD i ("", [])).2).filterMap parseSpecifier).map
                (fun sp => sp.columns)).sum)
      ∧ mapFind exCursors 2
          = (if (allSpecs exManifest).any (fun sp => sp.file == 2) then
              some (5 + (((allSpecs exManifest).filter (fun sp => sp.file == 2)).map
                (fun sp => sp.columns)).sum)
            else none)) :=
  ⟨by decide, c4_cursor_arithmetic Schema.census2010Pl94_171 exManifest exCursors exOut 2
    (by decide)⟩

/-- C5: for every accepted manifest and file `n`, the segments assigned to
`n` (in manifest order) have pairwise-ordered non-overlapping ranges, each
segment begins exactly where the previous segment of the same file stops,
the first segment of `n` starts at column 5, and within each table the
stored locations preserve the specifier order (same file sequence). -/
theorem c5_disjoint_contiguous (schema : Schema) (lines : List (String × List (List Char)))
    (mF : CursorMap) (out : List (Table × List TableSegmentLocation)) (n : Nat)
    (h : extract_table_locations schema lines = some (mF, out)) :
    (∀ k l, k < l → l < (fileSegs out n).length →
      ((fileSegs out n).getD k ⟨0, 0, 0⟩).stop ≤ ((fileSegs out n).getD l ⟨0, 0, 0⟩).start)
    ∧ (∀ k, k + 1 < (fileSegs out n).length →
      ((fileSegs out n).getD (k + 1) ⟨0, 0, 0⟩).start = ((fileSegs out n).getD k ⟨0, 0, 0⟩).stop)
    ∧ (0 < (fileSegs out n).length → ((fileSegs out n).getD 0 ⟨0, 0, 0⟩).start = 5)
    ∧ (∀ i, i < lines.length →
        ((out.getD i (.census2010 .P1, [])).2).map (fun loc => loc.file)
          = (((lines.getD i ("", [])).2).filterMap parseSpecifier).map (fun sp => sp.file)) := by
  have hflat := (extractLines_flatten schema lines [] mF out h).1
  have hlad : fileSegs out n
      = ladder n 5 (((allSpecs lines).filter (fun sp => sp.file == n)).map
          (fun sp => sp.columns)) := by
    rw [fileSegs, hflat, allocSegs_filter_ladder]
    simp [mapFind]
  refine ⟨?_, ?_, ?_, ?_⟩
  · intro k l hkl hl
    rw [hlad] at hl ⊢
    rw [ladder_length] at hl
    have hk : k + 1 ≤ l := hkl
    have hk2 : k < (((allSpecs lines).filter (fun sp => sp.file == n)).map
        (fun sp => sp.columns)).length := by omega
    rw [ladder_getD n _ k 5 hk2, ladder_getD n _ l 5 hl]
    have hmono := sum_take_mono (((allSpecs lines).filter (fun sp => sp.file == n)).map
      (fun sp => sp.columns)) (k + 1) l hk
    simpa using hmono
  · intro k hk1
    rw [hlad] at hk1 ⊢
    rw [ladder_length] at hk1
    rw [ladder_getD n _ (k + 1) 5 hk1, ladder_getD n _ k 5 (by omega)]
  · intro h0
    rw [hlad] at h0 ⊢
    rw [ladder_length] at h0
    rw [ladder_getD n _ 0 5 h0]
    simp
  · intro i hi
    rcases extractLines_line schema lines [] mF out h i hi with ⟨m', hm'⟩
    rw [hm']
    have hfw := allocSegs_fw ((lines.getD i ("", [])).2.filterMap parseSpecifier) m'
    have h2 := congrArg (List.map Prod.fst) hfw
    simpa [List.map_map, Function.comp] using h2

/-- C5 witness: the theorem applied to the five-line Indiana-style manifest,
file 2 (segments 5..76, 76..149, 149..152). -/
theorem c5_witness :
    extract_table_locations Schema.census2010Pl94_171 exManifest = some (exCursors, exOut)
    ∧ ((∀ k l, k < l → l < (fileSegs exOut 2).length →
        ((fileSegs exOut 2).getD k ⟨0, 0, 0⟩).stop ≤ ((fileSegs exOut 2).getD l ⟨0, 0, 0⟩).start)
      ∧ (∀ k, k + 1 < (fileSegs exOut 2).length →
        ((fileSegs exOut 2).getD (k + 1) ⟨0, 0, 0⟩).start
          = ((fileSegs exOut 2).getD k ⟨0, 0, 0⟩).stop)
      ∧ (0 < (fileSegs exOut 2).length → ((fileSegs exOut 2).getD 0 ⟨0, 0, 0⟩).start = 5)
      ∧ (∀ i, i < exManifest.length →
          ((exOut.getD i (.census2010 .P1, [])).2).map (fun loc => loc.file)
            = (((exManifest.getD i ("", [])).2).filterMap parseSpecifier).map
                (fun sp => sp.file))) :=
  ⟨by decide, c5_disjoint_contiguous Schema.census2010Pl94_171 exManifest exCursors exOut 2
    (by decide)⟩

end PList

/-- Helper: `mapOpt` of a never-failing function is the plain map. -/
theorem mapOpt_congr {α β : Type} (f : α → Option β) (g : α → β) :
    ∀ (l : List α), (∀ a ∈ l, f a = some (g a)) → mapOpt f l = some (l.map g) := by
  intro l
  induction l with
  | nil => intro _; rfl
  | cons a l ih =>
    intro h
    have ha := h a (by simp)
    have hl := ih (fun x hx => h x (List.mem_cons_of_mem a hx))
    simp [mapOpt, ha, hl]

/-- Helper: projecting the columns `a, a+1, …, a+k-1` out of an in-bounds
record yields the contiguous slice. -/
theorem mapOpt_slice (r : List String) : ∀ (k a : Nat), a + k ≤ r.length →
    mapOpt (fun c => r.get? c) ((List.range k).map (fun i => a + i))
      = some ((r.drop a).take k) := by
  intro k
  induction k with
  | zero => intro a ha; simp [mapOpt]
  | succ k0 ih =>
    intro a ha
    rw [List.range_succ_eq_map]
    simp only [List.map_cons, List.map_map, Nat.add_zero]
    have hmap : (List.range k0).map ((fun i => a + i) ∘ Nat.succ)
        = (List.range k0).map (fun i => (a + 1) + i) := by
      apply List.map_eq_map_iff.mpr
      intro i _
      simp only [Function.comp]
      omega
    rw [hmap]
    have ha0 : a < r.length := by omega
    have hget : r[a]? = some r[a] := List.getElem?_eq_getElem ha0
    have hih := ih (a + 1) (by omega)
    rw [List.drop_eq_getElem_cons ha0, List.take_succ_cons]
    simp only [List.get?_eq_getElem?] at hih ⊢
    simp [mapOpt, hget, hih]

namespace RecGet

/-- Helper: projecting a segment's column range out of an in-bounds record
yields `record[start..stop]`. -/
theorem mapOpt_rangeL (r : List String) (a b : Nat) (hb : b ≤ r.length) :
    mapOpt (fun c => r.get? c) (rangeL a b) = some (listSlice r a b) := by
  by_cases hab : a ≤ b
  · exact mapOpt_slice r (b - a) a (by omega)
  · have h0 : b - a = 0 := by omega
    simp [rangeL, listSlice, h0, mapOpt]

/-- Helper: the per-segment retrieval produces exactly the record's slice at
the segment's range. -/
theorem segCells_eq (ds : DS) (idx : Nat → Option (Nat → Option Nat)) (n : Nat)
    (tb : Pl94Table2010) (loc : TableSegmentLocation)
    (F : Nat → TabFile) (P : Nat → Nat → Option Nat) (O : Nat → Nat)
    (hf : ds.files loc.file = some (F loc.file))
    (hp : idx loc.file = some (P loc.file))
    (ho : P loc.file n = some (O loc.file))
    (hc : TabIdx.col4 ((F loc.file).read (O loc.file)) = some n)
    (hb : loc.stop ≤ ((F loc.file).read (O loc.file)).length) :
    segCells ds idx n (Schema.census2010Pl94_171 (some tb)) loc
      = some (listSlice ((F loc.file).read (O loc.file)) loc.start loc.stop) := by
  have hrange := mapOpt_rangeL ((F loc.file).read (O loc.file)) loc.start loc.stop hb
  simp only [List.get?_eq_getElem?] at hrange
  simp [segCells, ftyOf, hf, hp, ho, hc, hrange]

/-- Helper: a slice of an in-bounds segment has the range's length. -/
theorem listSlice_length (r : List String) (a b : Nat) (hb : b ≤ r.length) :
    (listSlice r a b).length = b - a := by
  simp only [listSlice, List.length_take, List.length_drop]
  omega

end RecGet

namespace RecGet

/-- C1: with every requested table present in the table-location map and a
position indexed for `n` in each needed file, `get_logical_record` returns
the concatenation, over the requested tables in caller order and over each
table's segments in stored order, of the cells `record[segment.range]` of
the CSV record read at the indexed byte offset for `n` in the segment's
file; the output record's length is the sum of the lengths of all those
segments' ranges. -/
theorem c1_get_logical_record_projection
    (ds : DS) (n : Nat) (reqs : List Schema)
    (idx : Nat → Option (Nat → Option Nat))
    (L : Schema → List TableSegmentLocation)
    (F : Nat → TabFile) (P : Nat → Nat → Option Nat) (O : Nat → Nat)
    (hIdx : ds.logicalRecordIndex = some idx)
    (hSome : ∀ s ∈ reqs, ∃ tb, s = Schema.census2010Pl94_171 (some tb))
    (hT : ∀ s ∈ reqs, ds.tables s = some (L s))
    (hSeg : ∀ s ∈ reqs, ∀ loc ∈ L s,
      ds.files loc.file = some (F loc.file)
      ∧ idx loc.file = some (P loc.file)
      ∧ P loc.file n = some (O loc.file)
      ∧ TabIdx.col4 ((F loc.file).read (O loc.file)) = some n
      ∧ loc.stop ≤ ((F loc.file).read (O loc.file)).length) :
    get_logical_record ds n reqs
      = some ((reqs.map (fun s => ((L s).map (fun loc =>
          listSlice ((F loc.file).read (O loc.file)) loc.start loc.stop)).flatten)).flatten)
    ∧ ((reqs.map (fun s => ((L s).map (fun loc =>
          listSlice ((F loc.file).read (O loc.file)) loc.start loc.stop)).flatten)).flatten).length
        = (reqs.map (fun s => ((L s).map (fun loc => loc.stop - loc.start)).sum)).sum := by
  constructor
  · have hinner : ∀ s ∈ reqs, tableCells ds idx n s
        = some (((L s).map (fun loc =>
            listSlice ((F loc.file).read (O loc.file)) loc.start loc.stop)).flatten) := by
      intro s hs
      obtain ⟨tb, rfl⟩ := hSome s hs
      have hcs : mapOpt (segCells ds idx n (Schema.census2010Pl94_171 (some tb)))
            (L (Schema.census2010Pl94_171 (some tb)))
          = some ((L (Schema.census2010Pl94_171 (some tb))).map (fun loc =>
              listSlice ((F loc.file).read (O loc.file)) loc.start loc.stop)) := by
        apply mapOpt_congr
        intro loc hloc
        obtain ⟨hf, hp, ho, hc, hb⟩ := hSeg _ hs loc hloc
        exact segCells_eq ds idx n tb loc F P O hf hp ho hc hb
      simp [tableCells, hT _ hs, hcs]
    have hparts := mapOpt_congr (tableCells ds idx n) _ reqs hinner
    simp [get_logical_record, hIdx, hparts]
  · rw [List.length_flatten, List.map_map]
    apply congrArg List.sum
    apply List.map_eq_map_iff.mpr
    intro s hs
    simp only [Function.comp]
    rw [List.length_flatten, List.map_map]
    apply congrArg List.sum
    apply List.map_eq_map_iff.mpr
    intro loc hloc
    simp only [Function.comp]
    exact listSlice_length _ _ _ (hSeg s hs loc hloc).2.2.2.2

/-- C1 witness: one table (P1 at columns 5..8 of file 1), logrecno 7 at byte
offset 0, record cells `10, 20, 30`. -/
theorem c1_witness :
    exDS.logicalRecordIndex = some (fun k => if k = 1 then some exPosIdx else none)
    ∧ (∀ s ∈ [Schema.census2010Pl94_171 (some .P1)],
        ∃ tb, s = Schema.census2010Pl94_171 (some tb))
    ∧ (∀ s ∈ [Schema.census2010Pl94_171 (some .P1)],
        exDS.tables s = some [(⟨1, 5, 8⟩ : TableSegmentLocation)])
    ∧ (∀ s ∈ [Schema.census2010Pl94_171 (some .P1)],
        ∀ loc ∈ [(⟨1, 5, 8⟩ : TableSegmentLocation)],
        exDS.files loc.file = some exTabFile
        ∧ (fun k => if k = 1 then some exPosIdx else none) loc.file = some exPosIdx
        ∧ exPosIdx 7 = some 0
        ∧ TabIdx.col4 (exTabFile.read 0) = some 7
        ∧ loc.stop ≤ (exTabFile.read 0).length)
    ∧ get_logical_record exDS 7 [Schema.census2010Pl94_171 (some .P1)]
        = some ["10", "20", "30"] := by
  refine ⟨rfl, ?_, ?_, ?_, ?_⟩
  · intro s hs
    rcases List.mem_singleton.mp hs with rfl
    exact ⟨Pl94Table2010.P1, rfl⟩
  · intro s hs
    rcases List.mem_singleton.mp hs with rfl
    rfl
  · intro s hs loc hloc
    rcases List.mem_singleton.mp hs with rfl
    rcases List.mem_singleton.mp hloc with rfl
    exact ⟨rfl, rfl, rfl, by decide, by decide⟩
  · have h := (c1_get_logical_record_projection exDS 7
      [Schema.census2010Pl94_171 (some .P1)]
      (fun k => if k = 1 then some exPosIdx else none)
      (fun _ => [⟨1, 5, 8⟩]) (fun _ => exTabFile)
      (fun _ => exPosIdx) (fun _ => 0)
      rfl
      (fun s hs => by
        rcases List.mem_singleton.mp hs with rfl
        exact ⟨Pl94Table2010.P1, rfl⟩)
      (fun s hs => by rcases List.mem_singleton.mp hs with rfl; rfl)
      (fun s hs loc hloc => by
        rcases List.mem_singleton.mp hs with rfl
        rcases List.mem_singleton.mp hloc with rfl
        exact ⟨rfl, rfl, rfl, by decide, by decide⟩)).1
    rw [h]
    rfl

end RecGet
